import Mathlib

set_option maxRecDepth 8192

/-
Verification of the ARP packet codec (`packet.go`).

The Go code is shallowly embedded: `uint8`/`uint16` values become `Nat`
(arithmetic is taken modulo 256 / 65536 exactly where the Go types force
it), byte slices become `List Nat`, a function that can panic returns
`Option`, and the mutating `UnmarshalBinary` is modelled by explicit
state passing on the receiver.
-/

namespace Arp

/-- Errors surfaced by the codec: `invalidHardwareAddr` models
`ErrInvalidHardwareAddr`, `invalidIP` models `ErrInvalidIP` and
`unexpectedEOF` models `io.ErrUnexpectedEOF` from `packet.go`. -/
inductive ArpError where
  | invalidHardwareAddr
  | invalidIP
  | unexpectedEOF
deriving DecidableEq, Repr

/-- The struct `Packet` of `packet.go`.  `HardwareType`, `ProtocolType` and
`Operation` are `uint16` fields, `HardwareAddrLength` and `IPLength` are
`uint8` fields, and the four address fields are byte slices. -/
structure Packet where
  HardwareType : Nat
  ProtocolType : Nat
  HardwareAddrLength : Nat
  IPLength : Nat
  Operation : Nat
  SenderHardwareAddr : List Nat
  SenderIP : List Nat
  TargetHardwareAddr : List Nat
  TargetIP : List Nat
deriving DecidableEq, Repr

/-- Each field fits the Go machine type carrying it (`uint16`, `uint8`,
and byte slices whose entries are bytes). -/
def typeOK (p : Packet) : Prop :=
  p.HardwareType < 65536 ∧ p.ProtocolType < 65536 ∧ p.Operation < 65536 ∧
  p.HardwareAddrLength < 256 ∧ p.IPLength < 256 ∧
  (∀ x ∈ p.SenderHardwareAddr, x < 256) ∧ (∀ x ∈ p.SenderIP, x < 256) ∧
  (∀ x ∈ p.TargetHardwareAddr, x < 256) ∧ (∀ x ∈ p.TargetIP, x < 256)

instance typeOK.dec (p : Packet) : Decidable (typeOK p) := by
  unfold typeOK; infer_instance

/-- The data-model invariant of the spec: the two declared length fields
equal the lengths of the four stored address fields. -/
def lengthInvariant (p : Packet) : Prop :=
  p.SenderHardwareAddr.length = p.HardwareAddrLength ∧
  p.TargetHardwareAddr.length = p.HardwareAddrLength ∧
  p.SenderIP.length = p.IPLength ∧
  p.TargetIP.length = p.IPLength

instance lengthInvariant.dec (p : Packet) : Decidable (lengthInvariant p) := by
  unfold lengthInvariant; infer_instance

/-- A valid `Packet`: a value representable in the Go types whose declared
lengths match its actual address-field lengths. -/
def valid (p : Packet) : Prop := typeOK p ∧ lengthInvariant p

instance valid.dec (p : Packet) : Decidable (valid p) := by
  unfold valid; infer_instance

/-- The big-endian byte pair `binary.BigEndian.PutUint16` stores for `v`:
`v >> 8` and `v & 0xff`, each reduced to a byte. -/
def encodeU16 (v : Nat) : List Nat := [v / 256 % 256, v % 256]

/-- Writing `data` into buffer `b` starting at index `i`.  Models a Go
write through the sub-slice `b[i : i+len(data)]`: slicing past the end of
`b` panics, which the model renders as `none`. -/
def writeBytes (b : List Nat) (i : Nat) (data : List Nat) : Option (List Nat) :=
  if i + data.length ≤ b.length then
    some (b.take i ++ data ++ b.drop (i + data.length))
  else none

/-- Models `binary.BigEndian.PutUint16(b[i:i+2], v)` from `packet.go`
(bounds check of the slice expression included). -/
def putUint16 (b : List Nat) (i v : Nat) : Option (List Nat) :=
  writeBytes b i (encodeU16 v)

/-- Models the byte assignment `b[i] = v` between `uint8` values
(index out of range panics, rendered as `none`). -/
def setByte (b : List Nat) (i v : Nat) : Option (List Nat) :=
  writeBytes b i [v]

/-- Models `copy(b[n:n+l], src)`: the slice expression panics unless
`n+l ≤ len(b)`; `copy` then transfers `min(l, len(src))` bytes. -/
def copyInto (b : List Nat) (n l : Nat) (src : List Nat) : Option (List Nat) :=
  if n + l ≤ b.length then
    writeBytes b n (src.take (min l src.length))
  else none

/-- Embedding of `MarshalBinary` from `packet.go`.  The Go buffer size expression
`2+2+1+1+2+4+4+(p.HardwareAddrLength*2)` is computed in `uint8`
arithmetic (the struct field has type `uint8`), hence the `% 256`.
The five header writes and four `copy` calls follow the source order and
offsets (`n` starts at 8 and accumulates `hal`, `pl`, `hal`). -/
def marshalBinary (p : Packet) : Option (List Nat) :=
  (putUint16 (List.replicate ((2+2+1+1+2+4+4 + 2 * p.HardwareAddrLength) % 256) 0)
      0 p.HardwareType).bind fun b =>
  (putUint16 b 2 p.ProtocolType).bind fun b =>
  (setByte b 4 p.HardwareAddrLength).bind fun b =>
  (setByte b 5 p.IPLength).bind fun b =>
  (putUint16 b 6 p.Operation).bind fun b =>
  (copyInto b 8 p.HardwareAddrLength p.SenderHardwareAddr).bind fun b =>
  (copyInto b (8 + p.HardwareAddrLength) p.IPLength p.SenderIP).bind fun b =>
  (copyInto b (8 + p.HardwareAddrLength + p.IPLength)
      p.HardwareAddrLength p.TargetHardwareAddr).bind fun b =>
  copyInto b (8 + p.HardwareAddrLength + p.IPLength + p.HardwareAddrLength)
      p.IPLength p.TargetIP

/-- Models `binary.BigEndian.Uint16(b[i:i+2])`; every use in
`UnmarshalBinary` happens after the `len(b) < 8` check, so the indices
are in bounds. -/
def readU16 (b : List Nat) (i : Nat) : Nat :=
  b.getD i 0 * 256 + b.getD (i + 1) 0

/-- Embedding of `UnmarshalBinary` from `packet.go`, modelled as a state transformer on
the receiver.  It returns the final value of the receiver together with
the returned error.  Mirroring the source, the five fixed-header fields
are assigned before the second length check; `ml` and `il` are the parsed
`b[4]` and `b[5]`; the four `make`+`copy` pairs become `drop`/`take`
(exact because the length check guarantees the slices are full). -/
def unmarshalBinary (p : Packet) (b : List Nat) : Packet × Option ArpError :=
  if b.length < 8 then (p, some ArpError.unexpectedEOF)
  else
    let p1 : Packet :=
      { p with
        HardwareType := readU16 b 0
        ProtocolType := readU16 b 2
        HardwareAddrLength := b.getD 4 0
        IPLength := b.getD 5 0
        Operation := readU16 b 6 }
    if b.length < 8 + 2 * b.getD 4 0 + 2 * b.getD 5 0 then
      (p1, some ArpError.unexpectedEOF)
    else
      ({ p1 with
          SenderHardwareAddr := (b.drop 8).take (b.getD 4 0)
          SenderIP := (b.drop (8 + b.getD 4 0)).take (b.getD 5 0)
          TargetHardwareAddr :=
            (b.drop (8 + b.getD 4 0 + b.getD 5 0)).take (b.getD 4 0)
          TargetIP :=
            (b.drop (8 + b.getD 4 0 + b.getD 5 0 + b.getD 4 0)).take (b.getD 5 0) },
        none)

/-- Embedding of `net.IP.To4` from the Go standard library, as called by `NewPacket`:
a 4-byte value is returned unchanged; a 16-byte value that is an
IPv4-mapped IPv6 address (ten zero bytes then `0xff 0xff`) is reduced to
its last four bytes; anything else yields `nil`. -/
def to4 (ip : List Nat) : Option (List Nat) :=
  if ip.length = 4 then some ip
  else if ip.length = 16 ∧ (∀ x ∈ ip.take 10, x = 0) ∧
      ip.getD 10 0 = 255 ∧ ip.getD 11 0 = 255 then
    some ((ip.drop 12).take 4)
  else none

/-- Embedding of `NewPacket` from `packet.go`.  The validation checks appear in source
order; `0x0800` is the value of `ethernet.EtherTypeIPv4`.  The two length
fields are set through `uint8(len(...))` conversions, which truncate
modulo 256, hence the `% 256`. -/
def newPacket (op : Nat) (srcHW srcIP dstHW dstIP : List Nat) :
    Except ArpError Packet :=
  if srcHW.length < 6 then .error ArpError.invalidHardwareAddr
  else if dstHW.length < 6 then .error ArpError.invalidHardwareAddr
  else if srcHW.length ≠ dstHW.length then .error ArpError.invalidHardwareAddr
  else
    match to4 srcIP with
    | none => .error ArpError.invalidIP
    | some s4 =>
      match to4 dstIP with
      | none => .error ArpError.invalidIP
      | some d4 =>
        .ok { HardwareType := 1
              ProtocolType := 0x0800
              HardwareAddrLength := srcHW.length % 256
              IPLength := s4.length % 256
              Operation := op
              SenderHardwareAddr := srcHW
              SenderIP := s4
              TargetHardwareAddr := dstHW
              TargetIP := d4 }

/-- The wire image of a packet: the 8-byte fixed header followed by the
four address fields in order.  This is the prefix `MarshalBinary`
actually writes and exactly what `UnmarshalBinary` consumes. -/
def wireBytes (p : Packet) : List Nat :=
  encodeU16 p.HardwareType ++ encodeU16 p.ProtocolType ++
  [p.HardwareAddrLength] ++ [p.IPLength] ++ encodeU16 p.Operation ++
  p.SenderHardwareAddr ++ p.SenderIP ++ p.TargetHardwareAddr ++ p.TargetIP

/-- The zero value of `Packet` (what `var p Packet` holds in Go). -/
def emptyPacket : Packet := ⟨0, 0, 0, 0, 0, [], [], [], []⟩

/-- The concrete packet of the spec scenario: request, two 6-byte MACs,
IPv4 addresses 192.168.1.1 and 192.168.1.2. -/
def pW : Packet :=
  ⟨1, 0x0800, 6, 4, 1, [0x00, 0x11, 0x22, 0x33, 0x44, 0x55], [192, 168, 1, 1],
    [0x66, 0x77, 0x88, 0x99, 0xAA, 0xBB], [192, 168, 1, 2]⟩

/-- A valid packet with `IPLength = 5`: the four writes need
`8 + 2*6 + 2*5 = 30` bytes but `MarshalBinary` allocates only 28. -/
def pRoundtripGap : Packet :=
  ⟨1, 0x0800, 6, 5, 1, [0, 17, 34, 51, 68, 85], [1, 2, 3, 4, 5],
    [102, 119, 136, 153, 170, 187], [9, 8, 7, 6, 5]⟩

/-- A valid packet with `IPLength = 0`; `MarshalBinary` still allocates
`16 + 2*6 = 28` bytes because the buffer size hard-codes `4+4`. -/
def pZeroIP : Packet :=
  ⟨1, 0x0800, 6, 0, 2, [1, 2, 3, 4, 5, 6], [], [7, 8, 9, 10, 11, 12], []⟩

/-- A valid packet with 128-byte hardware addresses: the `uint8` size
expression wraps to `(16 + 256) % 256 = 16`, so the first `copy` slices
out of bounds. -/
def pWideHW : Packet :=
  ⟨1, 0x0800, 128, 4, 1, List.replicate 128 7, [1, 2, 3, 4],
    List.replicate 128 9, [5, 6, 7, 8]⟩

/-- A valid packet with 16-byte protocol addresses: the writes need
`8 + 12 + 32 = 52` bytes but only 28 are allocated. -/
def pWideIP : Packet :=
  ⟨1, 0x0800, 6, 16, 1, [1, 2, 3, 4, 5, 6], List.replicate 16 1,
    [7, 8, 9, 10, 11, 12], List.replicate 16 2⟩

/-- A destination packet with recognisable prior field values. -/
def pPrior : Packet := ⟨7, 7, 7, 7, 7, [1], [2], [3], [4]⟩

/-- An 8-byte input declaring `H = 6`, `L = 4`: the header parses but the
variable-length sections are missing. -/
def bTrunc : List Nat := [0, 1, 8, 0, 6, 4, 0, 1]

/-- A valid packet with `IPLength = 0` used against the truncation claim:
its wire image ends at byte 20 of the 28-byte marshal output. -/
def pTruncGap : Packet :=
  ⟨1, 0x0800, 6, 0, 1, [11, 12, 13, 14, 15, 16], [], [21, 22, 23, 24, 25, 26], []⟩

/-- The packet `NewPacket` builds from two 300-byte hardware addresses:
the `uint8(len(srcHW))` conversion records `300 % 256 = 44` in
`HardwareAddrLength` while the stored addresses keep all 300 bytes. -/
def pLong : Packet :=
  ⟨1, 0x0800, 44, 4, 1, List.replicate 300 1, [1, 2, 3, 4],
    List.replicate 300 2, [5, 6, 7, 8]⟩


@[simp] theorem length_encodeU16 (v : Nat) : (encodeU16 v).length = 2 := rfl

/-- Writing `data` at the first position of the zero-filled tail of a
buffer appends it to the already-written prefix. -/
theorem writeBytes_step (done : List Nat) (k : Nat) (data : List Nat) (n : Nat)
    (hn : n = done.length) (hk : data.length ≤ k) :
    writeBytes (done ++ List.replicate k 0) n data
      = some ((done ++ data) ++ List.replicate (k - data.length) 0) := by
  subst hn
  unfold writeBytes
  rw [if_pos (by simp [List.length_append, List.length_replicate]; omega)]
  rw [List.take_left' rfl]
  rw [← List.drop_drop, List.drop_left, List.drop_replicate]

/-- Specialisation of the write step to `putUint16`. -/
theorem putUint16_step (done : List Nat) (k v n : Nat)
    (hn : n = done.length) (hk : 2 ≤ k) :
    putUint16 (done ++ List.replicate k 0) n v
      = some ((done ++ encodeU16 v) ++ List.replicate (k - 2) 0) := by
  unfold putUint16
  rw [writeBytes_step done k (encodeU16 v) n hn (by simp; omega)]
  rfl

/-- Specialisation of the write step to `setByte`. -/
theorem setByte_step (done : List Nat) (k v n : Nat)
    (hn : n = done.length) (hk : 1 ≤ k) :
    setByte (done ++ List.replicate k 0) n v
      = some ((done ++ [v]) ++ List.replicate (k - 1) 0) := by
  unfold setByte
  rw [writeBytes_step done k [v] n hn (by simp; omega)]
  simp

/-- Specialisation of the write step to a full-length `copy`. -/
theorem copyInto_step (done : List Nat) (k l : Nat) (src : List Nat) (n : Nat)
    (hn : n = done.length) (hsrc : src.length = l) (hl : l ≤ k) :
    copyInto (done ++ List.replicate k 0) n l src
      = some ((done ++ src) ++ List.replicate (k - l) 0) := by
  unfold copyInto
  rw [if_pos (by simp [List.length_append, List.length_replicate]; omega)]
  have htake : src.take (min l src.length) = src := by
    rw [hsrc, min_self, ← hsrc, List.take_length]
  rw [htake, writeBytes_step done k src n hn (by omega), hsrc]


/-- Characterisation of `MarshalBinary` on the regime where it does not
panic: for a valid packet with `HardwareAddrLength ≤ 119` and
`IPLength ≤ 4` it returns the wire image padded with `8 - 2*IPLength`
zero bytes (the allocation hard-codes 4-byte IP fields). -/
theorem marshalBinary_eq (p : Packet) (h : valid p)
    (hH : p.HardwareAddrLength ≤ 119) (hL : p.IPLength ≤ 4) :
    marshalBinary p
      = some (wireBytes p ++ List.replicate (8 - 2 * p.IPLength) 0) := by
  obtain ⟨-, hsha, htha, hsip, htip⟩ := h
  unfold marshalBinary
  have hb0 : List.replicate ((2+2+1+1+2+4+4 + 2 * p.HardwareAddrLength) % 256) 0
      = [] ++ List.replicate (16 + 2 * p.HardwareAddrLength) 0 := by
    rw [List.nil_append]; congr 1; omega
  rw [hb0]
  rw [putUint16_step [] (16 + 2 * p.HardwareAddrLength) p.HardwareType 0 rfl
    (by omega)]
  simp only [Option.some_bind]
  rw [putUint16_step ([] ++ encodeU16 p.HardwareType) _ p.ProtocolType 2
    (by simp) (by omega)]
  simp only [Option.some_bind]
  rw [setByte_step (([] ++ encodeU16 p.HardwareType) ++ encodeU16 p.ProtocolType)
    _ p.HardwareAddrLength 4 (by simp) (by omega)]
  simp only [Option.some_bind]
  rw [setByte_step ((([] ++ encodeU16 p.HardwareType) ++ encodeU16 p.ProtocolType)
    ++ [p.HardwareAddrLength]) _ p.IPLength 5 (by simp) (by omega)]
  simp only [Option.some_bind]
  rw [putUint16_step (((([] ++ encodeU16 p.HardwareType) ++ encodeU16 p.ProtocolType)
    ++ [p.HardwareAddrLength]) ++ [p.IPLength]) _ p.Operation 6 (by simp) (by omega)]
  simp only [Option.some_bind]
  rw [copyInto_step ((((([] ++ encodeU16 p.HardwareType) ++ encodeU16 p.ProtocolType)
    ++ [p.HardwareAddrLength]) ++ [p.IPLength]) ++ encodeU16 p.Operation)
    _ p.HardwareAddrLength p.SenderHardwareAddr 8 (by simp) hsha (by omega)]
  simp only [Option.some_bind]
  rw [copyInto_step (((((([] ++ encodeU16 p.HardwareType) ++ encodeU16 p.ProtocolType)
    ++ [p.HardwareAddrLength]) ++ [p.IPLength]) ++ encodeU16 p.Operation)
    ++ p.SenderHardwareAddr)
    _ p.IPLength p.SenderIP (8 + p.HardwareAddrLength)
    (by simp [hsha]; omega) hsip (by omega)]
  simp only [Option.some_bind]
  rw [copyInto_step ((((((([] ++ encodeU16 p.HardwareType) ++ encodeU16 p.ProtocolType)
    ++ [p.HardwareAddrLength]) ++ [p.IPLength]) ++ encodeU16 p.Operation)
    ++ p.SenderHardwareAddr) ++ p.SenderIP)
    _ p.HardwareAddrLength p.TargetHardwareAddr
    (8 + p.HardwareAddrLength + p.IPLength)
    (by simp [hsha, hsip]; omega) htha (by omega)]
  simp only [Option.some_bind]
  rw [copyInto_step (((((((([] ++ encodeU16 p.HardwareType) ++ encodeU16 p.ProtocolType)
    ++ [p.HardwareAddrLength]) ++ [p.IPLength]) ++ encodeU16 p.Operation)
    ++ p.SenderHardwareAddr) ++ p.SenderIP) ++ p.TargetHardwareAddr)
    _ p.IPLength p.TargetIP
    (8 + p.HardwareAddrLength + p.IPLength + p.HardwareAddrLength)
    (by simp [hsha, hsip, htha]; omega) htip (by omega)]
  have hK : 16 + 2 * p.HardwareAddrLength - 2 - 2 - 1 - 1 - 2
      - p.HardwareAddrLength - p.IPLength - p.HardwareAddrLength - p.IPLength
      = 8 - 2 * p.IPLength := by omega
  rw [hK]
  simp [wireBytes, List.append_assoc]


/-- Running `UnmarshalBinary` on a buffer beginning with the wire image of a
valid packet reconstructs that packet exactly and ignores the rest. -/
theorem unmarshalBinary_wire (p q : Packet) (rest : List Nat) (h : valid p) :
    unmarshalBinary q (wireBytes p ++ rest) = (p, none) := by
  obtain ⟨⟨h1, h2, h5, h3, h4, -, -, -, -⟩, hsha, htha, hsip, htip⟩ := h
  have hb : wireBytes p ++ rest
      = p.HardwareType / 256 % 256 :: p.HardwareType % 256 ::
        p.ProtocolType / 256 % 256 :: p.ProtocolType % 256 ::
        p.HardwareAddrLength :: p.IPLength ::
        p.Operation / 256 % 256 :: p.Operation % 256 ::
        (p.SenderHardwareAddr ++ (p.SenderIP ++
          (p.TargetHardwareAddr ++ (p.TargetIP ++ rest)))) := by
    simp [wireBytes, encodeU16]
  have hg4 : (wireBytes p ++ rest).getD 4 0 = p.HardwareAddrLength := by
    rw [hb]; rfl
  have hg5 : (wireBytes p ++ rest).getD 5 0 = p.IPLength := by
    rw [hb]; rfl
  have hr0 : readU16 (wireBytes p ++ rest) 0 = p.HardwareType := by
    rw [hb]
    show p.HardwareType / 256 % 256 * 256 + p.HardwareType % 256 = p.HardwareType
    omega
  have hr2 : readU16 (wireBytes p ++ rest) 2 = p.ProtocolType := by
    rw [hb]
    show p.ProtocolType / 256 % 256 * 256 + p.ProtocolType % 256 = p.ProtocolType
    omega
  have hr6 : readU16 (wireBytes p ++ rest) 6 = p.Operation := by
    rw [hb]
    show p.Operation / 256 % 256 * 256 + p.Operation % 256 = p.Operation
    omega
  have hlen : (wireBytes p ++ rest).length
      = 8 + 2 * p.HardwareAddrLength + 2 * p.IPLength + rest.length := by
    rw [hb]
    simp [List.length_append, hsha, htha, hsip, htip]
    omega
  have hd8 : (wireBytes p ++ rest).drop 8
      = p.SenderHardwareAddr ++ (p.SenderIP ++
          (p.TargetHardwareAddr ++ (p.TargetIP ++ rest))) := by
    rw [hb]; rfl
  have hdH : (wireBytes p ++ rest).drop (8 + p.HardwareAddrLength)
      = p.SenderIP ++ (p.TargetHardwareAddr ++ (p.TargetIP ++ rest)) := by
    rw [← List.drop_drop, hd8, List.drop_left' hsha]
  have hdHL : (wireBytes p ++ rest).drop
        (8 + p.HardwareAddrLength + p.IPLength)
      = p.TargetHardwareAddr ++ (p.TargetIP ++ rest) := by
    rw [← List.drop_drop, hdH, List.drop_left' hsip]
  have hdHLH : (wireBytes p ++ rest).drop
        (8 + p.HardwareAddrLength + p.IPLength + p.HardwareAddrLength)
      = p.TargetIP ++ rest := by
    rw [← List.drop_drop, hdHL, List.drop_left' htha]
  unfold unmarshalBinary
  rw [if_neg (by omega : ¬ (wireBytes p ++ rest).length < 8)]
  simp only []
  rw [hg4, hg5, if_neg (by omega)]
  rw [hr0, hr2, hr6, hd8, hdH, hdHL, hdHLH]
  rw [List.take_left' hsha, List.take_left' hsip, List.take_left' htha,
    List.take_left' htip]



/-- Byte 4 of the wire image is the declared hardware address length. -/
theorem wireBytes_getD4 (p : Packet) :
    (wireBytes p).getD 4 0 = p.HardwareAddrLength := rfl

/-- Byte 5 of the wire image is the declared protocol address length. -/
theorem wireBytes_getD5 (p : Packet) :
    (wireBytes p).getD 5 0 = p.IPLength := rfl

/-- The wire image of a length-consistent packet has the RFC 826 size. -/
theorem wireBytes_length (p : Packet) (h : lengthInvariant p) :
    (wireBytes p).length
      = 8 + 2 * p.HardwareAddrLength + 2 * p.IPLength := by
  obtain ⟨hsha, htha, hsip, htip⟩ := h
  simp [wireBytes, List.length_append, hsha, htha, hsip, htip]
  omega

/-- Indexing below the cut is unchanged by `take`. -/
theorem getD_take (l : List Nat) (k i : Nat) (h : i < k) :
    (l.take k).getD i 0 = l.getD i 0 := by
  rw [List.getD_eq_getElem?_getD, List.getD_eq_getElem?_getD,
    List.getElem?_take, if_pos h]

/-- First EOF case of `UnmarshalBinary`: fewer than 8 input bytes, no
field assigned. -/
theorem unmarshal_short (q : Packet) (b : List Nat) (h : b.length < 8) :
    unmarshalBinary q b = (q, some ArpError.unexpectedEOF) := by
  unfold unmarshalBinary
  rw [if_pos h]

/-- Second EOF case of `UnmarshalBinary`: the header parses but the input
is shorter than `8 + 2*H + 2*L`; the five header fields have already been
overwritten when the error is returned. -/
theorem unmarshal_trunc (q : Packet) (b : List Nat) (h8 : 8 ≤ b.length)
    (hlt : b.length < 8 + 2 * b.getD 4 0 + 2 * b.getD 5 0) :
    unmarshalBinary q b
      = ({ q with
            HardwareType := readU16 b 0
            ProtocolType := readU16 b 2
            HardwareAddrLength := b.getD 4 0
            IPLength := b.getD 5 0
            Operation := readU16 b 6 }, some ArpError.unexpectedEOF) := by
  unfold unmarshalBinary
  rw [if_neg (by omega)]
  simp only []
  rw [if_pos hlt]

/-- Whenever `net.IP.To4` succeeds its result has exactly 4 bytes. -/
theorem to4_length (ip r : List Nat) (h : to4 ip = some r) : r.length = 4 := by
  unfold to4 at h
  split at h
  · next hlen => rw [← Option.some_inj.mp h]; exact hlen
  · split at h
    · next hc =>
      rw [← Option.some_inj.mp h]
      simp [List.length_take, List.length_drop, hc.1]
    · simp at h


/-- Claim C1 (amended): for every valid packet whose
`HardwareAddrLength` is at most 119 and whose `IPLength` is at most 4,
serialization succeeds and deserializing its output yields a packet
deeply equal to the original, whatever the destination held before. -/
theorem c1_roundtrip (p q : Packet) (h : valid p)
    (hH : p.HardwareAddrLength ≤ 119) (hL : p.IPLength ≤ 4) :
    (marshalBinary p).isSome = true ∧
    unmarshalBinary q ((marshalBinary p).getD []) = (p, none) := by
  rw [marshalBinary_eq p h hH hL]
  exact ⟨rfl, unmarshalBinary_wire p q _ h⟩

/-- Witness for C1 at the spec's concrete request packet. -/
theorem c1_witness :
    (marshalBinary pW).isSome = true ∧
    unmarshalBinary emptyPacket ((marshalBinary pW).getD []) = (pW, none) :=
  c1_roundtrip pW emptyPacket (by decide) (by decide) (by decide)

/-- Counterexample to C1 as stated: `pRoundtripGap` is valid, yet
`MarshalBinary` aborts on it (out-of-bounds slice, modelled as `none`),
so `Deserialize(Serialize(p))` cannot yield `p`. -/
theorem c1_counterexample :
    valid pRoundtripGap ∧ marshalBinary pRoundtripGap = none :=
  ⟨by decide, by decide⟩

/-- Claim C2 (amended): for every valid packet with `IPLength = 4` and
`HardwareAddrLength ≤ 119`, serialization succeeds and its output has
length exactly `8 + 2*HardwareAddrLength + 2*IPLength`. -/
theorem c2_length (p : Packet) (h : valid p)
    (hH : p.HardwareAddrLength ≤ 119) (hL : p.IPLength = 4) :
    (marshalBinary p).isSome = true ∧
    ((marshalBinary p).getD []).length
      = 8 + 2 * p.HardwareAddrLength + 2 * p.IPLength := by
  rw [marshalBinary_eq p h hH (by omega)]
  refine ⟨rfl, ?_⟩
  show (wireBytes p ++ List.replicate (8 - 2 * p.IPLength) 0).length = _
  rw [List.length_append, List.length_replicate, wireBytes_length p h.2]
  omega

/-- Witness for C2 at the spec's concrete request packet. -/
theorem c2_witness :
    (marshalBinary pW).isSome = true ∧
    ((marshalBinary pW).getD []).length
      = 8 + 2 * pW.HardwareAddrLength + 2 * pW.IPLength :=
  c2_length pW (by decide) (by decide) (by decide)

/-- Counterexample to C2 as stated: the valid packet `pZeroIP` has
`8 + 2*H + 2*L = 20` but serializes to 28 bytes, because the buffer
size expression hard-codes `4+4` for the two IP fields. -/
theorem c2_counterexample :
    valid pZeroIP ∧ (marshalBinary pZeroIP).map List.length = some 28 ∧
    8 + 2 * pZeroIP.HardwareAddrLength + 2 * pZeroIP.IPLength = 20 :=
  ⟨by decide, by decide, by decide⟩

/-- Claim C3 evaluated at the failing input: `pWideHW` is well-formed,
yet `MarshalBinary` aborts (the `uint8` size expression wraps to 16 and
the first `copy` slices `b[8:136]` out of bounds). -/
theorem c3_marshal_aborts : valid pWideHW ∧ marshalBinary pWideHW = none :=
  ⟨by decide, by decide⟩

/-- Claim C4 (amended): when `UnmarshalBinary` fails with UnexpectedEOF
on an input shorter than 8 bytes, every field keeps its prior value;
when it fails on a longer input that is still shorter than
`8 + 2*H + 2*L`, the five fixed-header fields have been overwritten with
the parsed values while the four address fields keep their prior
values. -/
theorem c4_eof_frame (p : Packet) (b : List Nat) :
    (b.length < 8 → unmarshalBinary p b = (p, some ArpError.unexpectedEOF)) ∧
    (8 ≤ b.length → b.length < 8 + 2 * b.getD 4 0 + 2 * b.getD 5 0 →
      unmarshalBinary p b
        = ({ p with
              HardwareType := readU16 b 0
              ProtocolType := readU16 b 2
              HardwareAddrLength := b.getD 4 0
              IPLength := b.getD 5 0
              Operation := readU16 b 6 }, some ArpError.unexpectedEOF)) :=
  ⟨fun h => unmarshal_short p b h, fun h8 hlt => unmarshal_trunc p b h8 hlt⟩

/-- Witness for C4: the truncated input overwrites exactly the header. -/
theorem c4_witness :
    unmarshalBinary pPrior bTrunc
      = ({ pPrior with
            HardwareType := 1
            ProtocolType := 0x0800
            HardwareAddrLength := 6
            IPLength := 4
            Operation := 1 }, some ArpError.unexpectedEOF) :=
  (c4_eof_frame pPrior bTrunc).2 (by decide) (by decide)

/-- Counterexample to C4 as stated: on `bTrunc` the call fails with
UnexpectedEOF, yet `HardwareType` has changed from 7 to 1. -/
theorem c4_counterexample :
    (unmarshalBinary pPrior bTrunc).2 = some ArpError.unexpectedEOF ∧
    pPrior.HardwareType = 7 ∧
    (unmarshalBinary pPrior bTrunc).1.HardwareType = 1 :=
  ⟨by decide, by decide, by decide⟩

/-- Claim C5 (amended): for every valid packet with `IPLength = 4` and
`HardwareAddrLength ≤ 119` (so that serialization succeeds and its
output length is exactly `8 + 2*H + 2*L`), deserializing any strictly
shorter prefix of the output fails with UnexpectedEOF. -/
theorem c5_truncation (p q : Packet) (k : Nat) (h : valid p)
    (hH : p.HardwareAddrLength ≤ 119) (hL : p.IPLength = 4)
    (hk : k < 8 + 2 * p.HardwareAddrLength + 2 * p.IPLength) :
    (unmarshalBinary q (((marshalBinary p).getD []).take k)).2
      = some ArpError.unexpectedEOF := by
  have hwl := wireBytes_length p h.2
  rw [marshalBinary_eq p h hH (by omega)]
  have hpad : 8 - 2 * p.IPLength = 0 := by omega
  rw [hpad]
  rw [show (some (wireBytes p ++ List.replicate 0 0)).getD ([] : List Nat)
      = wireBytes p from by simp]
  by_cases h8 : k < 8
  · rw [unmarshal_short q _ (by rw [List.length_take]; omega)]
  · push_neg at h8
    have t4 : ((wireBytes p).take k).getD 4 0 = p.HardwareAddrLength := by
      rw [getD_take _ _ _ (by omega), wireBytes_getD4]
    have t5 : ((wireBytes p).take k).getD 5 0 = p.IPLength := by
      rw [getD_take _ _ _ (by omega), wireBytes_getD5]
    have tlen : ((wireBytes p).take k).length = k := by
      rw [List.length_take]; omega
    rw [unmarshal_trunc q ((wireBytes p).take k) (by omega)
      (by rw [t4, t5]; omega)]

/-- Witness for C5: a 9-byte prefix of the concrete packet's output. -/
theorem c5_witness :
    (unmarshalBinary emptyPacket (((marshalBinary pW).getD []).take 9)).2
      = some ArpError.unexpectedEOF :=
  c5_truncation pW emptyPacket 9 (by decide) (by decide) (by decide) (by decide)

/-- Counterexample to C5 as stated: for the valid packet `pTruncGap`
the serialized buffer is 28 bytes long, yet its 20-byte prefix — a
proper prefix — deserializes without error, because the wire image ends
at byte 20 and bytes 20..27 are only allocation padding. -/
theorem c5_counterexample :
    valid pTruncGap ∧ 20 < ((marshalBinary pTruncGap).getD []).length ∧
    (unmarshalBinary emptyPacket (((marshalBinary pTruncGap).getD []).take 20)).2
      = none :=
  ⟨by decide, by decide, by decide⟩

/-- Claim C6: `NewPacket` validates in the fixed order minimum hardware
address length, equal hardware address lengths, then IPv4
reducibility, failing fast with `InvalidHardwareAddr` respectively
`InvalidIP`; a hardware-address failure wins even if an IP argument is
also invalid, since the conclusion holds for arbitrary IP arguments. -/
theorem c6_validation (op : Nat) (sHW sIP dHW dIP : List Nat) :
    ((sHW.length < 6 ∨ dHW.length < 6) →
      newPacket op sHW sIP dHW dIP = Except.error ArpError.invalidHardwareAddr) ∧
    (6 ≤ sHW.length → 6 ≤ dHW.length → sHW.length ≠ dHW.length →
      newPacket op sHW sIP dHW dIP = Except.error ArpError.invalidHardwareAddr) ∧
    (6 ≤ sHW.length → 6 ≤ dHW.length → sHW.length = dHW.length →
      (to4 sIP = none ∨ to4 dIP = none) →
      newPacket op sHW sIP dHW dIP = Except.error ArpError.invalidIP) := by
  unfold newPacket
  refine ⟨?_, ?_, ?_⟩
  · intro hor
    rcases hor with hs | hd
    · rw [if_pos hs]
    · by_cases hs : sHW.length < 6
      · rw [if_pos hs]
      · rw [if_neg hs, if_pos hd]
  · intro hs hd hne
    rw [if_neg (by omega), if_neg (by omega), if_pos hne]
  · intro hs hd heq hor
    rw [if_neg (by omega), if_neg (by omega), if_neg (by omega)]
    rcases hor with h4 | h4
    · rw [h4]
    · cases hsrc : to4 sIP with
      | none => rfl
      | some s4 => rw [h4]

/-- Witness for C6 covering all three validation failures. -/
theorem c6_witness :
    newPacket 1 [0, 0, 0, 0, 0] [1, 2, 3, 4] [0, 0, 0, 0, 0, 0] [1, 2, 3, 4]
      = Except.error ArpError.invalidHardwareAddr ∧
    newPacket 1 [0, 0, 0, 0, 0, 0] [1, 2, 3, 4] [0, 0, 0, 0, 0, 0, 0] [1, 2, 3, 4]
      = Except.error ArpError.invalidHardwareAddr ∧
    newPacket 1 [0, 0, 0, 0, 0, 0] [1, 2, 3] [0, 0, 0, 0, 0, 0] [1, 2, 3, 4]
      = Except.error ArpError.invalidIP :=
  ⟨(c6_validation 1 [0, 0, 0, 0, 0] [1, 2, 3, 4] [0, 0, 0, 0, 0, 0]
      [1, 2, 3, 4]).1 (Or.inl (by decide)),
   (c6_validation 1 [0, 0, 0, 0, 0, 0] [1, 2, 3, 4] [0, 0, 0, 0, 0, 0, 0]
      [1, 2, 3, 4]).2.1 (by decide) (by decide) (by decide),
   (c6_validation 1 [0, 0, 0, 0, 0, 0] [1, 2, 3] [0, 0, 0, 0, 0, 0]
      [1, 2, 3, 4]).2.2 (by decide) (by decide) (by decide) (Or.inl (by decide))⟩

/-- Claim C7 (amended): a successful `NewPacket` yields hardware type 1,
protocol type 0x0800, hardware address length equal to the sender
hardware address length reduced modulo 256 (the `uint8` conversion
truncates, so equality with the true length holds exactly when the
supplied address is shorter than 256 bytes), IP length 4, the given
operation, the two given hardware addresses, and the 4-byte `To4`
reductions of the two IPs. -/
theorem c7_fields (op : Nat) (sHW sIP dHW dIP : List Nat) (p : Packet)
    (h : newPacket op sHW sIP dHW dIP = Except.ok p) :
    p.HardwareType = 1 ∧ p.ProtocolType = 0x0800 ∧
    p.HardwareAddrLength = sHW.length % 256 ∧ p.IPLength = 4 ∧
    p.Operation = op ∧ p.SenderHardwareAddr = sHW ∧
    p.TargetHardwareAddr = dHW ∧
    to4 sIP = some p.SenderIP ∧ to4 dIP = some p.TargetIP := by
  unfold newPacket at h
  split at h
  · simp at h
  · split at h
    · simp at h
    · split at h
      · simp at h
      · split at h
        · simp at h
        · next s4 hs4 =>
          split at h
          · simp at h
          · next d4 hd4 =>
            injection h with h
            subst h
            exact ⟨rfl, rfl, rfl, by rw [to4_length sIP s4 hs4], rfl, rfl,
              rfl, hs4, hd4⟩

/-- Witness for C7 at the spec's concrete construction scenario. -/
theorem c7_witness :
    pW.HardwareType = 1 ∧ pW.ProtocolType = 0x0800 ∧
    pW.HardwareAddrLength
      = ([0x00, 0x11, 0x22, 0x33, 0x44, 0x55] : List Nat).length % 256 ∧
    pW.IPLength = 4 ∧ pW.Operation = 1 ∧
    pW.SenderHardwareAddr = [0x00, 0x11, 0x22, 0x33, 0x44, 0x55] ∧
    pW.TargetHardwareAddr = [0x66, 0x77, 0x88, 0x99, 0xAA, 0xBB] ∧
    to4 [192, 168, 1, 1] = some pW.SenderIP ∧
    to4 [192, 168, 1, 2] = some pW.TargetIP :=
  c7_fields 1 [0x00, 0x11, 0x22, 0x33, 0x44, 0x55] [192, 168, 1, 1]
    [0x66, 0x77, 0x88, 0x99, 0xAA, 0xBB] [192, 168, 1, 2] pW (by rfl)

/-- Counterexample to C7 as stated: constructing from two 300-byte
hardware addresses succeeds, but the `uint8` conversion stores
`300 % 256 = 44` as the hardware address length, not the supplied
length 300. -/
theorem c7_counterexample :
    newPacket 1 (List.replicate 300 1) [1, 2, 3, 4]
        (List.replicate 300 2) [5, 6, 7, 8] = Except.ok pLong ∧
    pLong.HardwareAddrLength = 44 ∧
    (List.replicate 300 (1 : Nat)).length = 300 :=
  ⟨rfl, rfl, by simp⟩

/-- Claim C8 (amended): every packet state left by a successful
`UnmarshalBinary` satisfies both data-model length invariants, and so
does every packet produced by a successful `NewPacket` whose supplied
hardware addresses are shorter than 256 bytes; for longer addresses the
`uint8(len(srcHW))` conversion truncates the recorded length modulo 256
and the hardware invariant is violated. -/
theorem c8_invariants :
    (∀ op sHW sIP dHW dIP p, newPacket op sHW sIP dHW dIP = Except.ok p →
      sHW.length < 256 → lengthInvariant p) ∧
    (∀ q b p, unmarshalBinary q b = (p, none) → lengthInvariant p) := by
  constructor
  · intro op sHW sIP dHW dIP p h h256
    unfold newPacket at h
    split at h
    · simp at h
    · split at h
      · simp at h
      · split at h
        · simp at h
        · next hne =>
          split at h
          · simp at h
          · next s4 hs4 =>
            split at h
            · simp at h
            · next d4 hd4 =>
              injection h with h
              subst h
              refine ⟨(Nat.mod_eq_of_lt h256).symm, ?_, ?_, ?_⟩
              · rw [Nat.mod_eq_of_lt h256]
                exact (not_ne_iff.mp hne).symm
              · rw [to4_length sIP s4 hs4]
              · rw [to4_length sIP s4 hs4, to4_length dIP d4 hd4]
  · intro q b p h
    unfold unmarshalBinary at h
    split at h
    · simp at h
    · next h8 =>
      simp only [] at h
      split at h
      · simp at h
      · next hlt =>
        injection h with h1 h2
        subst h1
        push_neg at h8 hlt
        simp only [List.getD_eq_getElem?_getD] at hlt
        refine ⟨?_, ?_, ?_, ?_⟩ <;>
          simp [List.length_take, List.length_drop] <;> omega

/-- Witness for C8: the constructed concrete packet and the packet
parsed from eight zero bytes. -/
theorem c8_witness : lengthInvariant pW ∧ lengthInvariant emptyPacket :=
  ⟨c8_invariants.1 1 [0x00, 0x11, 0x22, 0x33, 0x44, 0x55] [192, 168, 1, 1]
      [0x66, 0x77, 0x88, 0x99, 0xAA, 0xBB] [192, 168, 1, 2] pW (by rfl)
      (by decide),
   c8_invariants.2 emptyPacket (List.replicate 8 0) emptyPacket (by rfl)⟩

/-- Counterexample to C8 as stated: constructing from two 300-byte
hardware addresses succeeds, yet the resulting packet violates the
hardware length invariant (stored addresses of length 300 against a
recorded `HardwareAddrLength` of `300 % 256 = 44`). -/
theorem c8_counterexample :
    newPacket 1 (List.replicate 300 1) [1, 2, 3, 4]
        (List.replicate 300 2) [5, 6, 7, 8] = Except.ok pLong ∧
    ¬ lengthInvariant pLong :=
  ⟨rfl, by decide⟩

/-- Claim C9 (amended): for every valid packet with
`HardwareAddrLength ≤ 119` and `IPLength ≤ 4`, serialization succeeds
and deserializing its output with any bytes appended still yields the
original packet: trailing bytes are ignored. -/
theorem c9_trailing (p q : Packet) (extra : List Nat) (h : valid p)
    (hH : p.HardwareAddrLength ≤ 119) (hL : p.IPLength ≤ 4) :
    (marshalBinary p).isSome = true ∧
    unmarshalBinary q (((marshalBinary p).getD []) ++ extra) = (p, none) := by
  rw [marshalBinary_eq p h hH hL]
  refine ⟨rfl, ?_⟩
  show unmarshalBinary q
    ((wireBytes p ++ List.replicate (8 - 2 * p.IPLength) 0) ++ extra) = (p, none)
  rw [List.append_assoc]
  exact unmarshalBinary_wire p q _ h

/-- Witness for C9 with one trailing byte. -/
theorem c9_witness :
    (marshalBinary pW).isSome = true ∧
    unmarshalBinary emptyPacket (((marshalBinary pW).getD []) ++ [255])
      = (pW, none) :=
  c9_trailing pW emptyPacket [255] (by decide) (by decide) (by decide)

/-- Counterexample to C9 as stated: `pWideIP` is valid, yet
`MarshalBinary` aborts on it, so no trailing bytes can make the
round trip succeed. -/
theorem c9_counterexample :
    valid pWideIP ∧ marshalBinary pWideIP = none :=
  ⟨by decide, by decide⟩

/-- Claim C10: on any input shorter than 8 bytes `UnmarshalBinary`
returns UnexpectedEOF with the destination packet fully unchanged,
fixed-header fields included. -/
theorem c10_prior_state (p : Packet) (b : List Nat) (h : b.length < 8) :
    unmarshalBinary p b = (p, some ArpError.unexpectedEOF) :=
  unmarshal_short p b h

/-- Witness for C10 on a 3-byte input. -/
theorem c10_witness :
    unmarshalBinary pPrior [0, 1, 2] = (pPrior, some ArpError.unexpectedEOF) :=
  c10_prior_state pPrior [0, 1, 2] (by decide)

end Arp
